import Mathlib

/-!
Verification of the certificate-operations core.

Shallow embedding of `internal/certificates/certificate_operations.go`
(functions `HashFields`, `GetCertificateForResourceInDomain`,
`ValidateResourceCertificates`) together with the validation helpers it
calls.  Machine integers are `Nat` with explicit `% 2^32` where the Go code
relies on 32-bit wrap-around; fallible Go functions return `Except`;
the unbounded polling loop takes explicit fuel and the theorems carry
"enough fuel" hypotheses.
-/

namespace Vcf

/-! ## Strings and bytes

`strings.Join(fields, sep)` and the UTF-8 byte view of a Go string
(`io.WriteString` writes the string's UTF-8 bytes into the digest). -/

/-- Go `strings.Join`: the elements of the list separated by `sep`. -/
def stringsJoin (sep : String) : List String → String
  | [] => ""
  | [s] => s
  | s :: rest => s ++ sep ++ stringsJoin sep rest

/-- Plain concatenation of the fields in order, no separator. -/
def concatAll : List String → String
  | [] => ""
  | s :: rest => s ++ concatAll rest

/-- UTF-8 encoding of one code point, as byte values below 256. -/
def utf8Char (c : Char) : List Nat :=
  let n := c.toNat
  if n < 128 then [n]
  else if n < 2048 then
    [192 + n / 64, 128 + n % 64]
  else if n < 65536 then
    [224 + n / 4096, 128 + (n / 64) % 64, 128 + n % 64]
  else
    [240 + n / 262144, 128 + (n / 4096) % 64, 128 + (n / 64) % 64, 128 + n % 64]

/-- The UTF-8 bytes of a string, the data `io.WriteString` hands the digest. -/
def strBytes (s : String) : List Nat :=
  s.data.flatMap utf8Char

/-! ## MD5 (crypto/md5)

RFC 1321, on `Nat` with explicit reduction mod `2^32`.  The digest state is
four 32-bit words; each 64-byte block runs 64 rounds. -/

/-- Truncate to a 32-bit word. -/
def w32 (n : Nat) : Nat := n % 4294967296

/-- Addition of two 32-bit words. -/
def wadd (a b : Nat) : Nat := (a + b) % 4294967296

/-- Complement of a 32-bit word (argument assumed already reduced). -/
def wnot (a : Nat) : Nat := 4294967295 - a % 4294967296

/-- Left rotation of a 32-bit word by `s`. -/
def rotl (x s : Nat) : Nat :=
  ((x % 4294967296) * 2 ^ (s % 32) + (x % 4294967296) / 2 ^ (32 - s % 32)) % 4294967296

/-- Round constants `K[i] = floor(2^32 * |sin(i+1)|)` of RFC 1321. -/
def md5K : List Nat :=
  [0xd76aa478, 0xe8c7b756, 0x242070db, 0xc1bdceee,
   0xf57c0faf, 0x4787c62a, 0xa8304613, 0xfd469501,
   0x698098d8, 0x8b44f7af, 0xffff5bb1, 0x895cd7be,
   0x6b901122, 0xfd987193, 0xa679438e, 0x49b40821,
   0xf61e2562, 0xc040b340, 0x265e5a51, 0xe9b6c7aa,
   0xd62f105d, 0x02441453, 0xd8a1e681, 0xe7d3fbc8,
   0x21e1cde6, 0xc33707d6, 0xf4d50d87, 0x455a14ed,
   0xa9e3e905, 0xfcefa3f8, 0x676f02d9, 0x8d2a4c8a,
   0xfffa3942, 0x8771f681, 0x6d9d6122, 0xfde5380c,
   0xa4beea44, 0x4bdecfa9, 0xf6bb4b60, 0xbebfbc70,
   0x289b7ec6, 0xeaa127fa, 0xd4ef3085, 0x04881d05,
   0xd9d4d039, 0xe6db99e5, 0x1fa27cf8, 0xc4ac5665,
   0xf4292244, 0x432aff97, 0xab9423a7, 0xfc93a039,
   0x655b59c3, 0x8f0ccc92, 0xffeff47d, 0x85845dd1,
   0x6fa87e4f, 0xfe2ce6e0, 0xa3014314, 0x4e0811a1,
   0xf7537e82, 0xbd3af235, 0x2ad7d2bb, 0xeb86d391]

/-- Per-round left-rotation amounts of RFC 1321. -/
def md5S : List Nat :=
  [7, 12, 17, 22, 7, 12, 17, 22, 7, 12, 17, 22, 7, 12, 17, 22,
   5, 9, 14, 20, 5, 9, 14, 20, 5, 9, 14, 20, 5, 9, 14, 20,
   4, 11, 16, 23, 4, 11, 16, 23, 4, 11, 16, 23, 4, 11, 16, 23,
   6, 10, 15, 21, 6, 10, 15, 21, 6, 10, 15, 21, 6, 10, 15, 21]

/-- The nonlinear round function and message index for round `i`. -/
def md5FG (i b c d : Nat) : Nat × Nat :=
  if i < 16 then (Nat.lor (Nat.land b c) (Nat.land (wnot b) d), i)
  else if i < 32 then (Nat.lor (Nat.land d b) (Nat.land (wnot d) c), (5 * i + 1) % 16)
  else if i < 48 then (Nat.xor (Nat.xor b c) d, (3 * i + 5) % 16)
  else (Nat.xor c (Nat.lor b (wnot d)), (7 * i) % 16)

/-- One MD5 round: rotate the state quadruple. -/
def md5Round (m : List Nat) (st : Nat × Nat × Nat × Nat) (i : Nat) :
    Nat × Nat × Nat × Nat :=
  let (a, b, c, d) := st
  let (f, g) := md5FG i b c d
  let tmp := wadd a (wadd f (wadd (md5K.getD i 0) (m.getD g 0)))
  (d, wadd b (rotl tmp (md5S.getD i 0)), b, c)

/-- The 16 little-endian 32-bit words of one 64-byte block. -/
def blockWords (chunk : List Nat) : List Nat :=
  (List.range 16).map fun j =>
    chunk.getD (4 * j) 0 + 256 * chunk.getD (4 * j + 1) 0 +
      65536 * chunk.getD (4 * j + 2) 0 + 16777216 * chunk.getD (4 * j + 3) 0

/-- Compress one 64-byte block into the running state. -/
def md5Block (st : Nat × Nat × Nat × Nat) (chunk : List Nat) :
    Nat × Nat × Nat × Nat :=
  let m := blockWords chunk
  let (a, b, c, d) := (List.range 64).foldl (md5Round m) st
  let (a0, b0, c0, d0) := st
  (wadd a0 a, wadd b0 b, wadd c0 c, wadd d0 d)

/-- Split a byte list into 64-byte chunks; the first argument is fuel,
at least the number of chunks (`bs.length` suffices). -/
def chunks64Aux : Nat → List Nat → List (List Nat)
  | 0, _ => []
  | _ + 1, [] => []
  | n + 1, bs => bs.take 64 :: chunks64Aux n (bs.drop 64)

/-- Split the padded message into 64-byte chunks. -/
def chunks64 (bs : List Nat) : List (List Nat) :=
  chunks64Aux bs.length bs

/-- MD5 padding: `0x80`, zeros to 56 mod 64, then the 8-byte little-endian
bit length of the original message. -/
def md5Pad (msg : List Nat) : List Nat :=
  let len := msg.length
  let zeros := (55 + 64 - len % 64) % 64
  let bitLen := (8 * len) % 2 ^ 64
  msg ++ [128] ++ List.replicate zeros 0 ++
    (List.range 8).map fun j => bitLen / 2 ^ (8 * j) % 256

/-- The four bytes of a 32-bit word, little-endian. -/
def wordBytesLE (w : Nat) : List Nat :=
  [w % 256, w / 256 % 256, w / 65536 % 256, w / 16777216 % 256]

/-- Go `md5.Sum`: the 16 digest bytes of a message. -/
def md5Sum (msg : List Nat) : List Nat :=
  let init : Nat × Nat × Nat × Nat :=
    (0x67452301, 0xefcdab89, 0x98badcfe, 0x10325476)
  let st := (chunks64 (md5Pad msg)).foldl md5Block init
  wordBytesLE st.1 ++ wordBytesLE st.2.1 ++ wordBytesLE st.2.2.1 ++ wordBytesLE st.2.2.2

/-! ## Lowercase hex (encoding/hex) -/

/-- One lowercase hex digit. -/
def hexDigit (n : Nat) : Char :=
  if n < 10 then Char.ofNat (48 + n) else Char.ofNat (87 + n)

/-- Go `hex.EncodeToString`: two lowercase digits per byte, high nibble first. -/
def hexEncodeToString (bs : List Nat) : String :=
  ⟨bs.flatMap fun b => [hexDigit (b / 16), hexDigit (b % 16)]⟩

/-! ## HashFields (certificate_operations.go:288) -/

/-- Writing the joined string into the digest, Go `io.WriteString`; the `hash.Hash` contract states the
embedded writer never returns an error, so the write yields the string's
bytes. -/
def md5WriteString (s : String) : Except String (List Nat) :=
  .ok (strBytes s)

/-- HashFields (certificate_operations.go:288-297): join the fields with the empty separator, feed the digest,
return the lowercase hex of the 128-bit sum. -/
def HashFields (fields : List String) : Except String String :=
  match md5WriteString (stringsJoin "" fields) with
  | .error e => .error e
  | .ok bytes => .ok (hexEncodeToString (md5Sum bytes))

/-- The sixteen characters `hex.EncodeToString` can emit. -/
def lowercaseHexChars : List Char :=
  "0123456789abcdef".data

/-! ## Certificates (models.Certificate)

Every field of the control-plane certificate is a pointer in the Go model:
absence must be representable and distinct from the empty string. -/

/-- Go `models.Certificate`, with the field set read by `FlattenCertificates`. -/
structure Certificate where
  domain : Option String := none
  expirationStatus : Option String := none
  issuedBy : Option String := none
  issuedTo : Option String := none
  keySize : Option String := none
  notAfter : Option String := none
  notBefore : Option String := none
  numberOfDaysToExpire : Option Int := none
  pemEncoded : Option String := none
  publicKey : Option String := none
  publicKeyAlgorithm : Option String := none
  serialNumber : Option String := none
  signatureAlgorithm : Option String := none
  subject : Option String := none
  subjectAlternativeName : Option (List String) := none
  thumbprint : Option String := none
  thumbprintAlgorithm : Option String := none
deriving DecidableEq

/-- The linear scan of `GetCertificateForResourceInDomain`
(certificate_operations.go:89-93): the first element whose `IssuedTo` is
non-nil and equal to `resourceFqdn`. -/
def findCertByIssuedTo (elements : List Certificate) (resourceFqdn : String) :
    Option Certificate :=
  match elements with
  | [] => none
  | cert :: rest =>
    if (match cert.issuedTo with
        | some s => s == resourceFqdn
        | none => false) then some cert
    else findCertByIssuedTo rest resourceFqdn

/-- GetCertificateForResourceInDomain (certificate_operations.go:77-95).
The listing RPC `GetCertificatesByDomain` is the opaque transport boundary,
so its result is the input: a transport error, or `Payload.Elements`. -/
def GetCertificateForResourceInDomain
    (listingResult : Except String (List Certificate)) (resourceFqdn : String) :
    Except String (Option Certificate) :=
  match listingResult with
  | .error e => .error e
  | .ok elements => .ok (findCertByIssuedTo elements resourceFqdn)

/-! ## Validation tasks and the polling loop

`ValidateResourceCertificates` (certificate_operations.go:27-75).  The
submit call's `(okResponse, acceptedResponse, err)` triple and the sequence
of status-query responses are inputs.  The loop is unbounded in the source,
so the embedding takes fuel; cancellation is a firing time observed by the
transport when a query is issued, while `time.Sleep` advances time by its
full duration unconditionally. -/

/-- Validation status, from the spec's `overallStatus` enumeration. -/
inductive ValidationStatus
  | inProgress
  | succeeded
  | failed
  | failedWithWarnings
deriving DecidableEq

/-- One element of `perResourceResults`. -/
structure ResourceValidationResult where
  resourceFqdn : String
  resourceType : String
  status : ValidationStatus
  messages : List String
deriving DecidableEq

/-- Go `models.CertificateValidationTask`: the polled snapshot. -/
structure CertificateValidationTask where
  validationID : Option String
  overallStatus : ValidationStatus
  validationChecks : List ResourceValidationResult
deriving DecidableEq

/-- Modelled from the spec: `HasCertificateValidationFinished` (not under
src/, only its callers are).  A status is terminal iff it is any completed
state; non-terminal only while in progress. -/
def HasCertificateValidationFinished (t : CertificateValidationTask) : Bool :=
  match t.overallStatus with
  | .inProgress => false
  | _ => true

/-- Modelled from the spec: `HaveCertificateValidationsFailed` (not under
src/).  The overall status is checked against the failing subset of the
terminal states. -/
def HaveCertificateValidationsFailed (t : CertificateValidationTask) : Bool :=
  match t.overallStatus with
  | .failed => true
  | .failedWithWarnings => true
  | _ => false

/-- Modelled from the spec: whether one resource's individual status
indicates failure. -/
def resourceFailed (r : ResourceValidationResult) : Bool :=
  match r.status with
  | .failed => true
  | .failedWithWarnings => true
  | _ => false

/-- One structured diagnostic entry of the failure report. -/
structure DiagEntry where
  resourceFqdn : String
  messages : List String
deriving DecidableEq

/-- Modelled from the spec: `ConvertCertificateValidationsResultToDiag`
(not under src/).  One separate entry per failing resource, carrying that
resource's messages; succeeded resources contribute nothing. -/
def ConvertCertificateValidationsResultToDiag (t : CertificateValidationTask) :
    List DiagEntry :=
  (t.validationChecks.filter fun r => resourceFailed r).map fun r =>
    { resourceFqdn := r.resourceFqdn, messages := r.messages }

/-- Observable steps of one validation run. -/
inductive Event
  | query (time : Nat)
  | sleep (time duration : Nat)
deriving DecidableEq

/-- Is the event a status query? -/
def isQueryEvent : Event → Bool
  | .query _ => true
  | .sleep _ _ => false

/-- The result of `ValidateResourceCertificates` (a `diag.Diagnostics`:
`nil` on success).  `invalidResponse` is the spec's `InvalidResponse`
taxon; `nilPanic` is a Go nil-pointer dereference; `fuelOut` only marks
runs longer than the given fuel. -/
inductive Outcome
  | success
  | vcfError (e : String)
  | validationFailure (entries : List DiagEntry)
  | invalidResponse
  | nilPanic
  | fuelOut
deriving DecidableEq

/-- The error a context-aware transport call reports once the caller's
cancellation/deadline signal has fired. -/
def ctxCanceled : String := "context canceled"

/-- One status query issued at time `t`: the transport observes the
cancellation signal at issuance; otherwise the `k`-th scripted response. -/
def queryAt (cancelAt : Option Nat)
    (querySeq : Nat → Except String CertificateValidationTask) (k t : Nat) :
    Except String CertificateValidationTask :=
  match cancelAt with
  | some c => if c ≤ t then .error ctxCanceled else querySeq k
  | none => querySeq k

/-- Exit of the polling loop. -/
inductive PollResult
  | errored (e : String)
  | finished (task : CertificateValidationTask)
  | nilPanic
  | fuelOut
deriving DecidableEq

/-- The `for` loop of certificate_operations.go:51-65.  Each iteration
dereferences `*validationId` (nil panics), issues a status query (an error
returns it at once), breaks when the response is terminal, and otherwise
runs `time.Sleep(10 * time.Second)` — which does not observe the
cancellation signal, so time advances by the full 10 seconds — and
retries.  `k` counts issued queries, `t` is the current time in seconds. -/
def pollLoop (cancelAt : Option Nat)
    (querySeq : Nat → Except String CertificateValidationTask)
    (validationID : Option String) :
    Nat → Nat → Nat → List Event × PollResult
  | 0, _, _ => ([], .fuelOut)
  | fuel + 1, k, t =>
    match validationID with
    | none => ([], .nilPanic)
    | some _ =>
      match queryAt cancelAt querySeq k t with
      | .error e => ([.query t], .errored e)
      | .ok task =>
        if HasCertificateValidationFinished task then
          ([.query t], .finished task)
        else
          let rest := pollLoop cancelAt querySeq validationID fuel (k + 1) (t + 10)
          (.query t :: .sleep t 10 :: rest.1, rest.2)

/-- certificate_operations.go:67-74: the checks run on the final response
after the wait. -/
def finalOutcome (task : CertificateValidationTask) : Outcome :=
  if HaveCertificateValidationsFailed task then
    .validationFailure (ConvertCertificateValidationsResultToDiag task)
  else .success

/-- ValidateResourceCertificates (certificate_operations.go:27-75).
`validationResponse` is taken from `okResponse`, then overridden by
`acceptedResponse` when that is non-nil; a submit error returns first.
When both branches are nil the task pointer is nil and the very next use
(the failure check, or `validationResponse.ValidationID` at line 48)
dereferences it: `nilPanic`.  A non-terminal response enters the loop with
the dereferenced `*validationId`. -/
def ValidateResourceCertificates
    (okResponse acceptedResponse : Option CertificateValidationTask)
    (submitErr : Option String) (cancelAt : Option Nat)
    (querySeq : Nat → Except String CertificateValidationTask) (fuel : Nat) :
    List Event × Outcome :=
  let validationResponse :=
    match acceptedResponse with
    | some a => some a
    | none => okResponse
  match submitErr with
  | some e => ([], .vcfError e)
  | none =>
    match validationResponse with
    | none => ([], .nilPanic)
    | some resp =>
      if HaveCertificateValidationsFailed resp then
        ([], .validationFailure (ConvertCertificateValidationsResultToDiag resp))
      else if HasCertificateValidationFinished resp then
        ([], finalOutcome resp)
      else
        match pollLoop cancelAt querySeq resp.validationID fuel 0 0 with
        | (tr, .errored e) => (tr, .vcfError e)
        | (tr, .finished task) => (tr, finalOutcome task)
        | (tr, .nilPanic) => (tr, .nilPanic)
        | (tr, .fuelOut) => (tr, .fuelOut)

/-- A status query whose scripted transport result is a per-call timeout. -/
def timeoutMsg : String := "net/http: request canceled (Client.Timeout exceeded)"

/-- The number of status queries issued at or after the firing time `c`. -/
def queriesAtOrAfter (c : Nat) (tr : List Event) : Nat :=
  (tr.filter fun ev =>
    match ev with
    | .query t => decide (c ≤ t)
    | .sleep _ _ => false).length

/-- A task still in progress, as the control plane reports it mid-run. -/
def runningTask : CertificateValidationTask :=
  { validationID := some "V1", overallStatus := .inProgress, validationChecks := [] }

/-- A terminal, succeeded task. -/
def succeededTask : CertificateValidationTask :=
  { validationID := some "V1", overallStatus := .succeeded, validationChecks := [] }

/-- A status-query script that always answers "still running". -/
def constRunningQuery : Nat → Except String CertificateValidationTask :=
  fun _ => .ok runningTask

/-- A status-query script: running on the first two queries, then
succeeded. -/
def threeStepQuery : Nat → Except String CertificateValidationTask :=
  fun k => if k < 2 then .ok runningTask else .ok succeededTask

/-- A per-resource result that succeeded. -/
def resourceOk1 : ResourceValidationResult :=
  { resourceFqdn := "r1", resourceType := "ESXI",
    status := .succeeded, messages := ["ok"] }

/-- A per-resource result that failed, with two messages. -/
def resourceBad2 : ResourceValidationResult :=
  { resourceFqdn := "r2", resourceType := "VCENTER",
    status := .failed, messages := ["bad certificate", "expired"] }

/-- Another per-resource result that succeeded. -/
def resourceOk3 : ResourceValidationResult :=
  { resourceFqdn := "r3", resourceType := "SDDC_MANAGER",
    status := .succeeded, messages := [] }

/-- A terminal failed validation over three resources where only the
second failed. -/
def failedTask3 : CertificateValidationTask :=
  { validationID := some "V2", overallStatus := .failed,
    validationChecks := [resourceOk1, resourceBad2, resourceOk3] }

/-! ## Supporting lemmas -/

theorem stringsJoin_empty_sep : ∀ l : List String, stringsJoin "" l = concatAll l
  | [] => rfl
  | [s] => by simp [stringsJoin, concatAll, String.append_empty]
  | s :: r :: rs => by
    have ih := stringsJoin_empty_sep (r :: rs)
    simp only [stringsJoin, concatAll, String.append_empty] at ih ⊢
    rw [ih]

theorem hashFields_eq_of_join_eq {l1 l2 : List String}
    (h : stringsJoin "" l1 = stringsJoin "" l2) : HashFields l1 = HashFields l2 := by
  unfold HashFields md5WriteString
  rw [h]

theorem wordBytesLE_lt (w : Nat) : ∀ x ∈ wordBytesLE w, x < 256 := by
  intro x hx
  simp only [wordBytesLE, List.mem_cons, List.not_mem_nil, or_false] at hx
  rcases hx with rfl | rfl | rfl | rfl <;> omega

theorem md5Sum_length (msg : List Nat) : (md5Sum msg).length = 16 := by
  simp [md5Sum, wordBytesLE]

theorem md5Sum_lt (msg : List Nat) : ∀ x ∈ md5Sum msg, x < 256 := by
  intro x hx
  simp only [md5Sum, List.mem_append] at hx
  rcases hx with ((h | h) | h) | h <;> exact wordBytesLE_lt _ x h

theorem hexDigit_inj : ∀ a, a < 16 → ∀ b, b < 16 → hexDigit a = hexDigit b → a = b := by
  decide

theorem lowercaseHexChars_contains_hexDigit :
    ∀ n, n < 16 → lowercaseHexChars.contains (hexDigit n) = true := by
  decide

theorem hexData_length (bs : List Nat) :
    (bs.flatMap fun b => [hexDigit (b / 16), hexDigit (b % 16)]).length =
      2 * bs.length := by
  induction bs with
  | nil => rfl
  | cons b rest ih =>
    simp only [List.flatMap_cons, List.length_append, List.length_cons,
      List.length_nil, List.length_cons, ih]
    omega

theorem hexEncodeToString_length (bs : List Nat) :
    (hexEncodeToString bs).length = 2 * bs.length := by
  have hd : (hexEncodeToString bs).length =
      (bs.flatMap fun b => [hexDigit (b / 16), hexDigit (b % 16)]).length := rfl
  rw [hd, hexData_length]

theorem hexEncode_all_lower (bs : List Nat) (h : ∀ x ∈ bs, x < 256) :
    ((hexEncodeToString bs).data.all fun c => lowercaseHexChars.contains c) = true := by
  rw [List.all_eq_true]
  intro c hc
  have hcm : c ∈ bs.flatMap fun b => [hexDigit (b / 16), hexDigit (b % 16)] := hc
  rw [List.mem_flatMap] at hcm
  obtain ⟨b, hb, hcb⟩ := hcm
  have hblt := h b hb
  simp only [List.mem_cons, List.not_mem_nil, or_false] at hcb
  rcases hcb with rfl | rfl
  · exact lowercaseHexChars_contains_hexDigit _ (by omega)
  · exact lowercaseHexChars_contains_hexDigit _ (by omega)

theorem hexEncode_injOn : ∀ bs1 bs2 : List Nat,
    (∀ x ∈ bs1, x < 256) → (∀ x ∈ bs2, x < 256) →
    hexEncodeToString bs1 = hexEncodeToString bs2 → bs1 = bs2 := by
  intro bs1
  induction bs1 with
  | nil =>
    intro bs2 _ _ h
    cases bs2 with
    | nil => rfl
    | cons b rest =>
      have hd : ([] : List Char) =
          (b :: rest).flatMap fun x => [hexDigit (x / 16), hexDigit (x % 16)] :=
        congrArg String.data h
      simp [List.flatMap_cons] at hd
  | cons a as ih =>
    intro bs2 h1 h2 h
    cases bs2 with
    | nil =>
      have hd : ((a :: as).flatMap fun x => [hexDigit (x / 16), hexDigit (x % 16)]) =
          ([] : List Char) := congrArg String.data h
      simp [List.flatMap_cons] at hd
    | cons b bs =>
      have hd : ((a :: as).flatMap fun x => [hexDigit (x / 16), hexDigit (x % 16)]) =
          (b :: bs).flatMap fun x => [hexDigit (x / 16), hexDigit (x % 16)] :=
        congrArg String.data h
      simp only [List.flatMap_cons, List.cons_append, List.nil_append] at hd
      injection hd with e1 hd2
      injection hd2 with e2 hd3
      have ha : a < 256 := h1 a (List.mem_cons_self _ _)
      have hb : b < 256 := h2 b (List.mem_cons_self _ _)
      have hhi : a / 16 = b / 16 := hexDigit_inj _ (by omega) _ (by omega) e1
      have hlo : a % 16 = b % 16 := hexDigit_inj _ (by omega) _ (by omega) e2
      have hab : a = b := by omega
      have hrest : as = bs := by
        refine ih bs (fun x hx => h1 x (List.mem_cons_of_mem _ hx))
          (fun x hx => h2 x (List.mem_cons_of_mem _ hx)) ?_
        exact congrArg String.mk hd3
      rw [hab, hrest]

/-! ## Claims about HashFields -/

/-- C3: for every list of strings `fields`, `HashFields fields` succeeds,
and its value is exactly the lowercase hexadecimal rendering — 32 lowercase
hex characters — of the 16-byte (128-bit) MD5 digest of the concatenation
of the fields in the given order with no separator.  The output is a pure
function of the field list, so two calls with identical input sequences
produce identical output. -/
theorem c3_hashFields_is_lower_hex_md5_of_concat (fields : List String) :
    HashFields fields =
      Except.ok (hexEncodeToString (md5Sum (strBytes (concatAll fields)))) ∧
    (md5Sum (strBytes (concatAll fields))).length = 16 ∧
    (hexEncodeToString (md5Sum (strBytes (concatAll fields)))).length = 32 ∧
    ((hexEncodeToString (md5Sum (strBytes (concatAll fields)))).data.all
      fun c => lowercaseHexChars.contains c) = true := by
  refine ⟨?_, md5Sum_length _, ?_, hexEncode_all_lower _ (md5Sum_lt _)⟩
  · unfold HashFields md5WriteString
    rw [stringsJoin_empty_sep]
  · rw [hexEncodeToString_length, md5Sum_length]

/-- C10: the fingerprint does not encode field boundaries: `HashFields`
depends only on the concatenation of the fields, and equals `HashFields`
of the single-element list holding that concatenation. -/
theorem c10_hash_ignores_field_boundaries :
    (∀ l1 l2 : List String, concatAll l1 = concatAll l2 →
      HashFields l1 = HashFields l2) ∧
    (∀ l : List String, HashFields l = HashFields [concatAll l]) := by
  constructor
  · intro l1 l2 h
    exact hashFields_eq_of_join_eq (by rw [stringsJoin_empty_sep, stringsJoin_empty_sep, h])
  · intro l
    refine hashFields_eq_of_join_eq ?_
    rw [stringsJoin_empty_sep, stringsJoin_empty_sep]
    simp [concatAll, String.append_empty]

/-- C10 witness: the distinct lists ["ab", "c"] and ["a", "bc"] share the
concatenation "abc" and therefore the fingerprint. -/
theorem c10_hash_ignores_field_boundaries_witness :
    HashFields ["ab", "c"] = HashFields ["a", "bc"] :=
  c10_hash_ignores_field_boundaries.1 _ _ (by decide)

/-- C4 counterexample: ["a", ""] and ["", "a"] are a reordering that
changes the sequence, yet both join to "a", so the digest input is
identical and `HashFields` agrees on them — not by digest coincidence. -/
theorem c4_perm_counterexample :
    (["a", ""] : List String) ≠ ["", "a"] ∧
    List.Perm ["a", ""] ["", "a"] ∧
    stringsJoin "" ["a", ""] = stringsJoin "" ["", "a"] ∧
    HashFields ["a", ""] = HashFields ["", "a"] :=
  ⟨by decide, List.Perm.swap "" "a" [], by decide,
    hashFields_eq_of_join_eq (by decide)⟩

/-- C4 corrected: a permutation of the field list changes the `HashFields`
output exactly when it changes the MD5 digest of the concatenation of the
fields; in particular a reordering that preserves the concatenation never
changes the output, and one that changes the digest always does. -/
theorem c4_perm_changes_hash_iff_digest_changes (l1 l2 : List String)
    (_hperm : List.Perm l1 l2) :
    HashFields l1 = HashFields l2 ↔
      md5Sum (strBytes (stringsJoin "" l1)) =
        md5Sum (strBytes (stringsJoin "" l2)) := by
  constructor
  · intro h
    unfold HashFields md5WriteString at h
    have h2 := Except.ok.inj h
    exact hexEncode_injOn _ _ (md5Sum_lt _) (md5Sum_lt _) h2
  · intro h
    show Except.ok (hexEncodeToString (md5Sum (strBytes (stringsJoin "" l1)))) =
      Except.ok (hexEncodeToString (md5Sum (strBytes (stringsJoin "" l2))))
    rw [h]

/-- C4 witness: the corrected equivalence at the concrete permutation
["x", "y"] versus ["y", "x"]. -/
theorem c4_perm_changes_hash_iff_digest_changes_witness :
    HashFields ["x", "y"] = HashFields ["y", "x"] ↔
      md5Sum (strBytes (stringsJoin "" ["x", "y"])) =
        md5Sum (strBytes (stringsJoin "" ["y", "x"])) :=
  c4_perm_changes_hash_iff_digest_changes _ _ (List.Perm.swap "y" "x" [])

/-! ## Claims about GetCertificateForResourceInDomain -/

theorem findCertByIssuedTo_eq_none :
    ∀ (elements : List Certificate) (fqdn : String),
      (∀ c ∈ elements, c.issuedTo ≠ some fqdn) →
      findCertByIssuedTo elements fqdn = none
  | [], _, _ => rfl
  | cert :: rest, fqdn, h => by
    have hc := h cert (List.mem_cons_self _ _)
    have hrest := findCertByIssuedTo_eq_none rest fqdn
      (fun c hcm => h c (List.mem_cons_of_mem _ hcm))
    cases hio : cert.issuedTo with
    | none => simp [findCertByIssuedTo, hio, hrest]
    | some s =>
      have hne : (s == fqdn) = false := by
        rw [beq_eq_false_iff_ne]
        intro he
        exact hc (by rw [hio, he])
      simp [findCertByIssuedTo, hio, hne, hrest]

theorem findCertByIssuedTo_some :
    ∀ (elements : List Certificate) (fqdn : String) (cert : Certificate),
      findCertByIssuedTo elements fqdn = some cert →
      cert.issuedTo = some fqdn
  | [], _, _, h => by simp [findCertByIssuedTo] at h
  | c :: rest, fqdn, cert, h => by
    cases hio : c.issuedTo with
    | none =>
      rw [findCertByIssuedTo, hio] at h
      simp at h
      exact findCertByIssuedTo_some rest fqdn cert h
    | some s =>
      rw [findCertByIssuedTo, hio] at h
      by_cases hs : s = fqdn
      · simp [hs] at h
        rw [← h, hio, hs]
      · simp [hs] at h
        exact findCertByIssuedTo_some rest fqdn cert h

/-- C6: when the certificate-listing call succeeds and no listed element's
`issuedTo` equals `resourceFqdn`, `GetCertificateForResourceInDomain`
returns an absent certificate with no error; when the listing call itself
fails, that error is propagated verbatim — a successful empty lookup and a
failed lookup are always distinguishable. -/
theorem c6_lookup_miss_vs_failure
    (listingResult : Except String (List Certificate)) (fqdn : String) :
    (∀ e, listingResult = .error e →
      GetCertificateForResourceInDomain listingResult fqdn = .error e) ∧
    (∀ elements, listingResult = .ok elements →
      (∀ c ∈ elements, c.issuedTo ≠ some fqdn) →
      GetCertificateForResourceInDomain listingResult fqdn = .ok none) := by
  constructor
  · intro e he
    subst he
    rfl
  · intro elements he h
    subst he
    simp [GetCertificateForResourceInDomain, findCertByIssuedTo_eq_none elements fqdn h]

/-- C6 witness: a miss among listed certificates yields `ok none`; a
listing failure yields that error. -/
theorem c6_lookup_miss_vs_failure_witness :
    GetCertificateForResourceInDomain
      (.ok [{ issuedTo := some "host-a" }]) "host-z" = .ok none ∧
    GetCertificateForResourceInDomain
      (.error "transport failure") "host-z" = .error "transport failure" :=
  ⟨(c6_lookup_miss_vs_failure _ _).2 _ rfl (by decide),
   (c6_lookup_miss_vs_failure _ _).1 _ rfl⟩

/-- C9: whatever the listing and the `resourceFqdn` — the empty string
included — a certificate returned as the match always has `issuedTo` set
(to `resourceFqdn`); an element with an absent `issuedTo` is skipped by the
scan and can never be returned. -/
theorem c9_match_never_has_unset_issuedTo
    (listingResult : Except String (List Certificate)) (fqdn : String)
    (cert : Certificate)
    (h : GetCertificateForResourceInDomain listingResult fqdn = .ok (some cert)) :
    cert.issuedTo = some fqdn ∧ cert.issuedTo ≠ none := by
  cases listingResult with
  | error e => simp [GetCertificateForResourceInDomain] at h
  | ok elements =>
    simp only [GetCertificateForResourceInDomain, Except.ok.injEq] at h
    have hset := findCertByIssuedTo_some elements fqdn cert h
    exact ⟨hset, by rw [hset]; exact fun hn => Option.noConfusion hn⟩

/-- C9 witness: with the empty string as `resourceFqdn`, an element whose
`issuedTo` is unset is skipped and the returned match has
`issuedTo = some ""`. -/
theorem c9_match_never_has_unset_issuedTo_witness :
    ({ issuedTo := some "" } : Certificate).issuedTo = some "" ∧
    ({ issuedTo := some "" } : Certificate).issuedTo ≠ none :=
  c9_match_never_has_unset_issuedTo
    (.ok [{}, { issuedTo := some "" }]) "" _ (by rfl)

/-! ## Claims about ValidateResourceCertificates and its polling loop -/

theorem not_finished_not_failed {t : CertificateValidationTask}
    (h : HasCertificateValidationFinished t = false) :
    HaveCertificateValidationsFailed t = false := by
  unfold HasCertificateValidationFinished at h
  unfold HaveCertificateValidationsFailed
  cases ht : t.overallStatus <;> rw [ht] at h <;> simp_all

theorem queryAt_not_fired {cancelAt : Option Nat}
    (querySeq : Nat → Except String CertificateValidationTask) (k t : Nat)
    (h : ∀ c, cancelAt = some c → t < c) :
    queryAt cancelAt querySeq k t = querySeq k := by
  cases cancelAt with
  | none => rfl
  | some c =>
    have := h c rfl
    simp only [queryAt]
    rw [if_neg (by omega)]

theorem queryAt_fired {c : Nat}
    (querySeq : Nat → Except String CertificateValidationTask) (k t : Nat)
    (h : c ≤ t) :
    queryAt (some c) querySeq k t = .error ctxCanceled := by
  simp only [queryAt]
  rw [if_pos h]

theorem pollLoop_step_error {cancelAt : Option Nat}
    {querySeq : Nat → Except String CertificateValidationTask}
    {vid : String} {k t : Nat} {e : String} (fuel : Nat)
    (hq : queryAt cancelAt querySeq k t = .error e) :
    pollLoop cancelAt querySeq (some vid) (fuel + 1) k t =
      ([Event.query t], .errored e) := by
  simp only [pollLoop, hq]

theorem pollLoop_step_done {cancelAt : Option Nat}
    {querySeq : Nat → Except String CertificateValidationTask}
    {vid : String} {k t : Nat} {task : CertificateValidationTask} (fuel : Nat)
    (hq : queryAt cancelAt querySeq k t = .ok task)
    (hfin : HasCertificateValidationFinished task = true) :
    pollLoop cancelAt querySeq (some vid) (fuel + 1) k t =
      ([Event.query t], .finished task) := by
  simp only [pollLoop, hq, hfin, if_true]

theorem pollLoop_step_running {cancelAt : Option Nat}
    {querySeq : Nat → Except String CertificateValidationTask}
    {vid : String} {k t : Nat} {task : CertificateValidationTask} (fuel : Nat)
    (hq : queryAt cancelAt querySeq k t = .ok task)
    (hrun : HasCertificateValidationFinished task = false) :
    pollLoop cancelAt querySeq (some vid) (fuel + 1) k t =
      (Event.query t :: Event.sleep t 10 ::
        (pollLoop cancelAt querySeq (some vid) fuel (k + 1) (t + 10)).1,
       (pollLoop cancelAt querySeq (some vid) fuel (k + 1) (t + 10)).2) := by
  simp only [pollLoop, hq, hrun]
  rw [if_neg (by simp)]

theorem validate_enters_loop
    {okResponse acceptedResponse : Option CertificateValidationTask}
    {resp : CertificateValidationTask} {cancelAt : Option Nat}
    {querySeq : Nat → Except String CertificateValidationTask} {fuel : Nat}
    (heff : (match acceptedResponse with
             | some a => some a
             | none => okResponse) = some resp)
    (hrun : HasCertificateValidationFinished resp = false) :
    ValidateResourceCertificates okResponse acceptedResponse none cancelAt querySeq fuel =
      (match pollLoop cancelAt querySeq resp.validationID fuel 0 0 with
       | (tr, .errored e) => (tr, Outcome.vcfError e)
       | (tr, .finished task) => (tr, finalOutcome task)
       | (tr, .nilPanic) => (tr, Outcome.nilPanic)
       | (tr, .fuelOut) => (tr, Outcome.fuelOut)) := by
  simp only [ValidateResourceCertificates, heff, not_finished_not_failed hrun, hrun]
  rw [if_neg (by simp), if_neg (by simp)]

/-- C1: in every run whose submit response is non-terminal (with a resolved
validation id, and the cancellation signal — if any — firing only after the
run), where the first two status queries report a still-running state and
the third reports a terminal state, the waiter issues exactly three status
queries and exactly two sleeps of the fixed 10-second poll interval, one
between consecutive queries, and returns the result carried by the third
query's response. -/
theorem c1_running_running_terminal_is_three_queries_two_sleeps
    (okResponse acceptedResponse : Option CertificateValidationTask)
    (resp t1 t2 t3 : CertificateValidationTask) (id : String)
    (cancelAt : Option Nat)
    (querySeq : Nat → Except String CertificateValidationTask) (fuel : Nat)
    (heff : (match acceptedResponse with
             | some a => some a
             | none => okResponse) = some resp)
    (hid : resp.validationID = some id)
    (hrun : HasCertificateValidationFinished resp = false)
    (hc : ∀ c, cancelAt = some c → 20 < c)
    (hq0 : querySeq 0 = .ok t1) (h1 : HasCertificateValidationFinished t1 = false)
    (hq1 : querySeq 1 = .ok t2) (h2 : HasCertificateValidationFinished t2 = false)
    (hq2 : querySeq 2 = .ok t3) (h3 : HasCertificateValidationFinished t3 = true)
    (hfuel : 3 ≤ fuel) :
    ∃ tr,
      ValidateResourceCertificates okResponse acceptedResponse none cancelAt
          querySeq fuel = (tr, finalOutcome t3) ∧
      tr = [Event.query 0, Event.sleep 0 10, Event.query 10, Event.sleep 10 10,
            Event.query 20] ∧
      (tr.filter isQueryEvent).length = 3 ∧
      tr.filter (fun ev => ! isQueryEvent ev) =
        [Event.sleep 0 10, Event.sleep 10 10] := by
  obtain ⟨m, rfl⟩ : ∃ m, fuel = m + 3 := ⟨fuel - 3, by omega⟩
  have hq0a : queryAt cancelAt querySeq 0 0 = .ok t1 := by
    rw [queryAt_not_fired querySeq 0 0 (fun c hcc => by have := hc c hcc; omega), hq0]
  have hq1a : queryAt cancelAt querySeq 1 10 = .ok t2 := by
    rw [queryAt_not_fired querySeq 1 10 (fun c hcc => by have := hc c hcc; omega), hq1]
  have hq2a : queryAt cancelAt querySeq 2 20 = .ok t3 := by
    rw [queryAt_not_fired querySeq 2 20 (fun c hcc => by have := hc c hcc; omega), hq2]
  have hpoll : pollLoop cancelAt querySeq (some id) (m + 3) 0 0 =
      ([Event.query 0, Event.sleep 0 10, Event.query 10, Event.sleep 10 10,
        Event.query 20], .finished t3) := by
    have e3 : m + 3 = (m + 2) + 1 := rfl
    rw [e3, pollLoop_step_running (m + 2) hq0a h1]
    simp only [Nat.reduceAdd, Nat.zero_add]
    have e2 : m + 2 = (m + 1) + 1 := rfl
    rw [e2, pollLoop_step_running (m + 1) hq1a h2]
    simp only [Nat.reduceAdd]
    rw [pollLoop_step_done m hq2a h3]
  refine ⟨_, ?_, rfl, rfl, rfl⟩
  rw [validate_enters_loop heff hrun, hid, hpoll]

/-- C1 witness: the concrete Running → Running → Succeeded script with
three units of fuel. -/
theorem c1_running_running_terminal_is_three_queries_two_sleeps_witness :
    ∃ tr,
      ValidateResourceCertificates none (some runningTask) none none
          threeStepQuery 3 = (tr, finalOutcome succeededTask) ∧
      tr = [Event.query 0, Event.sleep 0 10, Event.query 10, Event.sleep 10 10,
            Event.query 20] ∧
      (tr.filter isQueryEvent).length = 3 ∧
      tr.filter (fun ev => ! isQueryEvent ev) =
        [Event.sleep 0 10, Event.sleep 10 10] :=
  c1_running_running_terminal_is_three_queries_two_sleeps none (some runningTask)
    runningTask runningTask runningTask succeededTask "V1" none threeStepQuery 3
    rfl rfl rfl (fun c h => nomatch h) rfl rfl rfl rfl rfl rfl (by omega)

/-- C2 counterexample: the cancellation signal fires at time 5, strictly
inside the sleep that spans times 0 to 10, yet the waiter does not return
at time 5: it completes the full sleep and then issues a further status
query at time 10 — after the signal has fired — whose cancellation error
is what it finally returns. -/
theorem c2_cancelled_mid_sleep_counterexample :
    ValidateResourceCertificates none (some runningTask) none (some 5)
        constRunningQuery 5 =
      ([Event.query 0, Event.sleep 0 10, Event.query 10],
       .vcfError ctxCanceled) ∧
    Event.sleep 0 10 ∈ [Event.query 0, Event.sleep 0 10, Event.query 10] ∧
    0 < 5 ∧ 5 < 0 + 10 ∧
    Event.query 10 ∈ [Event.query 0, Event.sleep 0 10, Event.query 10] ∧
    5 < 10 :=
  ⟨rfl, by decide, by decide, by decide, by decide, by decide⟩

/-- C2 corrected: the cancellation signal is observed only when a status
query is issued — `time.Sleep` runs its full 10 seconds regardless — so
once the signal has fired the loop issues at most one more status query
(the trace holds at most one query at or after the firing time), and the
first query issued at or after the firing time fails with the context's
cancellation error, which the loop returns at once. -/
theorem c2_cancellation_observed_only_at_query_issuance
    (querySeq : Nat → Except String CertificateValidationTask)
    (vid : String) (c : Nat) :
    (∀ fuel k t,
      queriesAtOrAfter c (pollLoop (some c) querySeq (some vid) fuel k t).1 ≤ 1) ∧
    (∀ fuel k t, c ≤ t → 0 < fuel →
      pollLoop (some c) querySeq (some vid) fuel k t =
        ([Event.query t], .errored ctxCanceled)) := by
  have hstop : ∀ fuel k t, c ≤ t → 0 < fuel →
      pollLoop (some c) querySeq (some vid) fuel k t =
        ([Event.query t], .errored ctxCanceled) := by
    intro fuel k t hct hf
    obtain ⟨m, rfl⟩ : ∃ m, fuel = m + 1 := ⟨fuel - 1, by omega⟩
    exact pollLoop_step_error m (queryAt_fired querySeq k t hct)
  refine ⟨?_, hstop⟩
  intro fuel
  induction fuel with
  | zero =>
    intro k t
    simp [pollLoop, queriesAtOrAfter]
  | succ n ih =>
    intro k t
    by_cases hct : c ≤ t
    · rw [hstop (n + 1) k t hct (by omega)]
      simp [queriesAtOrAfter, hct]
    · have hq : queryAt (some c) querySeq k t = querySeq k :=
        queryAt_not_fired querySeq k t (fun cc e => by injection e with e; omega)
      cases hqs : querySeq k with
      | error e =>
        rw [pollLoop_step_error n (hq.trans hqs)]
        simp [queriesAtOrAfter, hct]
      | ok task =>
        cases hfin : HasCertificateValidationFinished task with
        | true =>
          rw [pollLoop_step_done n (hq.trans hqs) hfin]
          simp [queriesAtOrAfter, hct]
        | false =>
          rw [pollLoop_step_running n (hq.trans hqs) hfin]
          have hdrop : queriesAtOrAfter c
              (Event.query t :: Event.sleep t 10 ::
                (pollLoop (some c) querySeq (some vid) n (k + 1) (t + 10)).1) =
              queriesAtOrAfter c
                (pollLoop (some c) querySeq (some vid) n (k + 1) (t + 10)).1 := by
            simp [queriesAtOrAfter, hct]
          rw [hdrop]
          exact ih (k + 1) (t + 10)

/-- C2 witness: the corrected statement at the concrete firing time 5 —
at most one post-firing query in a five-step run, and a query issued at
time 10 ≥ 5 stops the loop at once with the cancellation error. -/
theorem c2_cancellation_observed_only_at_query_issuance_witness :
    queriesAtOrAfter 5
      (pollLoop (some 5) constRunningQuery (some "V1") 5 0 0).1 ≤ 1 ∧
    pollLoop (some 5) constRunningQuery (some "V1") 3 1 10 =
      ([Event.query 10], .errored ctxCanceled) :=
  ⟨(c2_cancellation_observed_only_at_query_issuance constRunningQuery "V1" 5).1 5 0 0,
   (c2_cancellation_observed_only_at_query_issuance constRunningQuery "V1" 5).2 3 1 10
     (by omega) (by omega)⟩

/-- C5 counterexample: with neither response branch present and no
transport error, the function's outcome is a nil-pointer panic, not an
`InvalidResponse` error — no `InvalidResponse` is ever constructed on this
path. -/
theorem c5_neither_branch_counterexample :
    ValidateResourceCertificates none none none none constRunningQuery 0 =
      ([], Outcome.nilPanic) ∧
    (ValidateResourceCertificates none none none none constRunningQuery 0).2 ≠
      Outcome.invalidResponse :=
  ⟨rfl, by decide⟩

/-- C5 corrected: when the submit call yields neither the synchronous-
result branch nor the accepted branch and no transport error, the code
does not fail fast with an `InvalidResponse` error: the nil task pointer
is dereferenced by the very next checks (the failure predicate, then
`validationResponse.ValidationID`), a Go nil-pointer panic, before any
status query is issued. -/
theorem c5_neither_branch_is_nil_panic (cancelAt : Option Nat)
    (querySeq : Nat → Except String CertificateValidationTask) (fuel : Nat) :
    ValidateResourceCertificates none none none cancelAt querySeq fuel =
      ([], Outcome.nilPanic) := rfl

/-- C7 counterexample: a per-call timeout on the first status query is
returned at once as the operation's failure — the trace holds exactly one
query and no sleep, so the query is not retried. -/
theorem c7_timeout_not_retried_counterexample :
    ValidateResourceCertificates none (some runningTask) none none
        (fun _ => .error timeoutMsg) 5 =
      ([Event.query 0], .vcfError timeoutMsg) ∧
    ([Event.query 0].filter isQueryEvent).length = 1 :=
  ⟨rfl, rfl⟩

/-- C7 corrected: any error on a status query — a per-call timeout
included — is surfaced immediately as the operation's failure: the loop
stops with that error after the failing query, and the overall function
returns it; the query is never retried. -/
theorem c7_query_error_surfaced_immediately
    (querySeq : Nat → Except String CertificateValidationTask)
    (vid : String) (e : String) :
    (∀ m k t, querySeq k = .error e →
      pollLoop none querySeq (some vid) (m + 1) k t =
        ([Event.query t], .errored e)) ∧
    (∀ (okResponse acceptedResponse : Option CertificateValidationTask)
        (resp : CertificateValidationTask) (fuel : Nat),
      (match acceptedResponse with
       | some a => some a
       | none => okResponse) = some resp →
      HasCertificateValidationFinished resp = false →
      resp.validationID = some vid →
      querySeq 0 = .error e → 0 < fuel →
      ValidateResourceCertificates okResponse acceptedResponse none none
          querySeq fuel = ([Event.query 0], .vcfError e)) := by
  have hstep : ∀ m k t, querySeq k = .error e →
      pollLoop none querySeq (some vid) (m + 1) k t =
        ([Event.query t], .errored e) := by
    intro m k t hq
    exact pollLoop_step_error m hq
  refine ⟨hstep, ?_⟩
  intro okResponse acceptedResponse resp fuel heff hrun hid hq0 hf
  obtain ⟨m, rfl⟩ : ∃ m, fuel = m + 1 := ⟨fuel - 1, by omega⟩
  rw [validate_enters_loop heff hrun, hid, hstep m 0 0 hq0]

/-- C7 witness: the corrected statement at a concrete timed-out query,
at the loop level and at the function level. -/
theorem c7_query_error_surfaced_immediately_witness :
    pollLoop none (fun _ => .error timeoutMsg) (some "V1") 4 0 0 =
      ([Event.query 0], .errored timeoutMsg) ∧
    ValidateResourceCertificates (some runningTask) none none none
        (fun _ => .error timeoutMsg) 7 =
      ([Event.query 0], .vcfError timeoutMsg) :=
  ⟨(c7_query_error_surfaced_immediately (fun _ => .error timeoutMsg) "V1"
      timeoutMsg).1 3 0 0 rfl,
   (c7_query_error_surfaced_immediately (fun _ => .error timeoutMsg) "V1"
      timeoutMsg).2 (some runningTask) none runningTask 7 rfl rfl rfl rfl
     (by omega)⟩

/-- C8: for a terminal validation result whose overall status indicates
failure, the returned error is the structured report that enumerates every
resource whose individual status indicates failure as a separate entry
carrying that resource's original messages intact; succeeded resources are
absent, and the number of entries equals the number of failing resources,
so multiple failures are never collapsed into one message. -/
theorem c8_failure_report_enumerates_failing_resources
    (t : CertificateValidationTask)
    (hfail : HaveCertificateValidationsFailed t = true) :
    finalOutcome t =
      .validationFailure (ConvertCertificateValidationsResultToDiag t) ∧
    (ConvertCertificateValidationsResultToDiag t).length =
      (t.validationChecks.filter fun r => resourceFailed r).length ∧
    (∀ r ∈ t.validationChecks, resourceFailed r = true →
      ({ resourceFqdn := r.resourceFqdn, messages := r.messages } : DiagEntry) ∈
        ConvertCertificateValidationsResultToDiag t) ∧
    (∀ d ∈ ConvertCertificateValidationsResultToDiag t,
      ∃ r ∈ t.validationChecks, resourceFailed r = true ∧
        d.resourceFqdn = r.resourceFqdn ∧ d.messages = r.messages) := by
  refine ⟨by simp [finalOutcome, hfail], ?_, ?_, ?_⟩
  · simp [ConvertCertificateValidationsResultToDiag]
  · intro r hr hf
    simp only [ConvertCertificateValidationsResultToDiag, List.mem_map]
    exact ⟨r, List.mem_filter.mpr ⟨hr, hf⟩, rfl⟩
  · intro d hd
    simp only [ConvertCertificateValidationsResultToDiag, List.mem_map] at hd
    obtain ⟨r, hrf, hrd⟩ := hd
    have hm := List.mem_filter.mp hrf
    exact ⟨r, hm.1, hm.2, by rw [← hrd], by rw [← hrd]⟩

/-- C8 witness: the three-resource task where only resource "r2" failed —
the report is exactly one entry, for "r2", with both original messages. -/
theorem c8_failure_report_enumerates_failing_resources_witness :
    (finalOutcome failedTask3 =
      .validationFailure (ConvertCertificateValidationsResultToDiag failedTask3) ∧
    (ConvertCertificateValidationsResultToDiag failedTask3).length =
      (failedTask3.validationChecks.filter fun r => resourceFailed r).length ∧
    (∀ r ∈ failedTask3.validationChecks, resourceFailed r = true →
      ({ resourceFqdn := r.resourceFqdn, messages := r.messages } : DiagEntry) ∈
        ConvertCertificateValidationsResultToDiag failedTask3) ∧
    (∀ d ∈ ConvertCertificateValidationsResultToDiag failedTask3,
      ∃ r ∈ failedTask3.validationChecks, resourceFailed r = true ∧
        d.resourceFqdn = r.resourceFqdn ∧ d.messages = r.messages)) ∧
    ConvertCertificateValidationsResultToDiag failedTask3 =
      [{ resourceFqdn := "r2", messages := ["bad certificate", "expired"] }] :=
  ⟨c8_failure_report_enumerates_failing_resources failedTask3 rfl, rfl⟩

end Vcf
